import Mathlib

set_option maxRecDepth 40000

/-!
Verification development for `generate_monolithic_vcxproj.py`, a generator
that produces a monolithic Visual Studio project file (`hlffi_monolithic.vcxproj`)
by combining hand-declared source lists with source files discovered on the
filesystem via `glob`, rendering them into a fixed XML template, writing the
result with CRLF line endings, and printing a summary.

The filesystem is modelled as a listing: a `List (List String)`, each element
the relative path (as its `/`-separated components) of one existing filesystem
entry, in the (arbitrary) order the underlying traversal reports them.
Components of real paths never contain the separator `/`.

`glob.glob(full_pattern, recursive=True)` is modelled by filtering the listing
with a pattern matcher: the pattern is split into components; a component is
matched by `fnmatch`-style matching (`*` matches any run of characters, `?` any
single character, other characters literally; character classes `[...]` are not
used by the script and are modelled as literal characters), wildcard components
do not match names starting with `.` (glob's hidden-file rule), and a `**`
component (only active because the script passes `recursive=True`) matches any
number of path components.  `glob` never raises on a missing directory; it
simply yields no matches, which the total Lean function reflects.
-/

/-- `fnmatch`-style matching, structurally recursive on a fuel argument so
that it evaluates by kernel reduction; every step shrinks pattern plus name,
so fuel `p.length + c.length` (as supplied by `fnmatchList`) never runs out. -/
def fnmatchFuel : Nat → List Char → List Char → Bool
  | _, [], [] => true
  | _, [], _ :: _ => false
  | 0, _ :: _, _ => false
  | fuel + 1, p :: ps, [] => if p = '*' then fnmatchFuel fuel ps [] else false
  | fuel + 1, p :: ps, c :: cs =>
    if p = '*' then fnmatchFuel fuel ps (c :: cs) || fnmatchFuel fuel (p :: ps) cs
    else if p = '?' then fnmatchFuel fuel ps cs
    else if p = c then fnmatchFuel fuel ps cs else false

/-- One component of a `fnmatch`-style pattern matched against one name,
both as character lists.  Faithful to `fnmatch.fnmatch` for the pattern
alphabet the script uses (`*` matches any run of characters, `?` any single
character, others literally). -/
def fnmatchList (p c : List Char) : Bool := fnmatchFuel (p.length + c.length) p c

/-- Whether a string starts with the character `.` (glob's hidden-file test). -/
def startsWithDot (s : String) : Bool :=
  match s.data with
  | [] => false
  | c :: _ => c = '.'

/-- Match of one pattern component against one path component, including
glob's rule that a pattern not starting with `.` never matches a name
starting with `.`. -/
def globComponent (pat name : String) : Bool :=
  if startsWithDot name && !startsWithDot pat then false
  else fnmatchList pat.data name.data

/-- Component-wise glob path matching, structurally recursive on a fuel
argument so that it evaluates by kernel reduction; every step shrinks
pattern plus path, so fuel `ps.length + fs.length` (as supplied by
`matchPath`) never runs out. -/
def matchPathFuel : Nat → List String → List String → Bool
  | _, [], [] => true
  | _, [], _ :: _ => false
  | 0, _ :: _, _ => false
  | fuel + 1, p :: ps, fs =>
    if p = "**" then
      matchPathFuel fuel ps fs ||
        (match fs with
         | [] => false
         | _ :: fs' => matchPathFuel fuel (p :: ps) fs')
    else
      match fs with
      | [] => false
      | f :: fs' => globComponent p f && matchPathFuel fuel ps fs'

/-- Match of a component-wise glob pattern against the components of one
filesystem entry; `**` (enabled by `recursive=True`) matches any number of
components. -/
def matchPath (ps fs : List String) : Bool := matchPathFuel (ps.length + fs.length) ps fs

/-- Split a path string on the separator `/` (how `glob` decomposes
`os.path.join(base_path, pattern)` into components). -/
def splitSlashAux : List Char → List Char → List String
  | [], acc => [⟨acc.reverse⟩]
  | c :: rest, acc =>
    if c = '/' then ⟨acc.reverse⟩ :: splitSlashAux rest []
    else splitSlashAux rest (c :: acc)

/-- Split a path string on `/`. -/
def splitSlash (s : String) : List String := splitSlashAux s.data []

/-- Rebuild the `/`-separated path string of a listing entry (the form in
which `glob` returns it, relative to the working directory). -/
def joinSlash : List String → String
  | [] => ""
  | [c] => c
  | c :: rest => c ++ "/" ++ joinSlash rest

/-- `s.replace('/', '\\')`: `str.replace` with a one-character pattern is
character-wise substitution. -/
def replSlash (s : String) : String :=
  ⟨s.data.map fun c => if c = '/' then '\\' else c⟩

/-- `find_sources(base_path, pattern)` from the script:
`glob.glob(os.path.join(base_path, pattern), recursive=True)`, each result
made relative to the working directory (`os.path.relpath(f, '.')` is the
identity on the already-relative normalized paths `glob` returns here) with
`/` replaced by `\`, and the whole list sorted (Python `sorted` on strings
is an ascending lexicographic stable sort, i.e. `List.mergeSort` under
`· ≤ ·`). -/
def find_sources (fs : List (List String)) (base_path pattern : String) : List String :=
  let comps := splitSlash base_path ++ splitSlash pattern
  let files := fs.filter fun f => matchPath comps f
  let rel_files := files.map fun f => replSlash (joinSlash f)
  List.mergeSort rel_files

/-- The hand-declared `HLFFI wrapper code` file list. -/
def hlffiWrapperFiles : List String :=
  [ "src\\hlffi_core.c",
    "src\\hlffi_events.c",
    "src\\hlffi_integration.c",
    "src\\hlffi_lifecycle.c",
    "src\\hlffi_reload.c",
    "src\\hlffi_threading.c" ]

/-- The hand-declared `HashLink VM core` file list. -/
def hashlinkVmFiles : List String :=
  [ "vendor\\hashlink\\src\\allocator.c",
    "vendor\\hashlink\\src\\code.c",
    "vendor\\hashlink\\src\\module.c",
    "vendor\\hashlink\\src\\jit.c",
    "vendor\\hashlink\\src\\debugger.c",
    "vendor\\hashlink\\src\\profile.c",
    "vendor\\hashlink\\src\\gc.c" ]

/-- The hand-declared `Plugin wrappers` file list. -/
def pluginWrapperFiles : List String :=
  [ "vendor\\hashlink\\libs\\uv\\uv.c",
    "vendor\\hashlink\\libs\\ssl\\ssl.c" ]

/-- The `sources` list assembled by `main()`: explicit groups and discovered
groups in the exact append order of the script. -/
def buildSources (fs : List (List String)) : List (String × List String) :=
  [ ("HLFFI wrapper code", hlffiWrapperFiles),
    ("HashLink VM core", hashlinkVmFiles),
    ("HashLink standard library", find_sources fs "vendor/hashlink/src/std" "*.c"),
    ("PCRE2 regex library", find_sources fs "vendor/hashlink/include/pcre" "*.c"),
    ("Plugin wrappers", pluginWrapperFiles),
    ("libuv sources (embedded)",
      find_sources fs "vendor/hashlink/include/libuv/src" "*.c" ++
      find_sources fs "vendor/hashlink/include/libuv/src/win" "*.c"),
    ("mbedtls sources (embedded - TLS/SSL support)",
      find_sources fs "vendor/hashlink/include/mbedtls/library" "*.c") ]
/-- Chunk 0 of the `VCXPROJ_HEADER` template literal. -/
def hdrChunk0 : String :=
"<?xml version=\"1.0\" encoding=\"utf-8\"?>
<Project DefaultTargets=\"Build\" xmlns=\"http://schemas.microsoft.com/developer/msbuild/2003\">
  <ItemGroup Label=\"ProjectConfigurations\">
    <ProjectConfiguration Include=\"Debug|x64\">
      <Configuration>Debug</Configuration>
      <Platform>x64</Platform>
    </ProjectConfiguration>
    <ProjectConfiguration Include=\"Release|x64\">
      <Configuration>Release</Configuration>
      <Platform>x64</Platform>
"

/-- Chunk 1 of the `VCXPROJ_HEADER` template literal. -/
def hdrChunk1 : String :=
"    </ProjectConfiguration>
  </ItemGroup>
  <PropertyGroup Label=\"Globals\">
    <VCProjectVersion>16.0</VCProjectVersion>
    <ProjectGuid>\x7bF7A8B1E3-9C4D-4E5F-8A6B-1D2E3F4A5B6C\x7d</ProjectGuid>
    <Keyword>Win32Proj</Keyword>
    <RootNamespace>hlffi</RootNamespace>
    <WindowsTargetPlatformVersion>10.0</WindowsTargetPlatformVersion>
  </PropertyGroup>
  <Import Project=\"$(VCTargetsPath)\\Microsoft.Cpp.Default.props\" />
"

/-- Chunk 2 of the `VCXPROJ_HEADER` template literal. -/
def hdrChunk2 : String :=
"  <PropertyGroup Condition=\"'$(Configuration)|$(Platform)'=='Debug|x64'\" Label=\"Configuration\">
    <ConfigurationType>StaticLibrary</ConfigurationType>
    <UseDebugLibraries>true</UseDebugLibraries>
    <PlatformToolset>v143</PlatformToolset>
    <CharacterSet>Unicode</CharacterSet>
  </PropertyGroup>
  <PropertyGroup Condition=\"'$(Configuration)|$(Platform)'=='Release|x64'\" Label=\"Configuration\">
"

/-- Chunk 3 of the `VCXPROJ_HEADER` template literal. -/
def hdrChunk3 : String :=
"    <ConfigurationType>StaticLibrary</ConfigurationType>
    <UseDebugLibraries>false</UseDebugLibraries>
    <PlatformToolset>v143</PlatformToolset>
    <WholeProgramOptimization>true</WholeProgramOptimization>
    <CharacterSet>Unicode</CharacterSet>
  </PropertyGroup>
  <Import Project=\"$(VCTargetsPath)\\Microsoft.Cpp.props\" />
  <ImportGroup Label=\"ExtensionSettings\">
  </ImportGroup>
  <ImportGroup Label=\"Shared\">
  </ImportGroup>
"

/-- Chunk 4 of the `VCXPROJ_HEADER` template literal. -/
def hdrChunk4 : String :=
"  <ImportGroup Label=\"PropertySheets\" Condition=\"'$(Configuration)|$(Platform)'=='Debug|x64'\">
    <Import Project=\"$(UserRootDir)\\Microsoft.Cpp.$(Platform).user.props\" Condition=\"exists('$(UserRootDir)\\Microsoft.Cpp.$(Platform).user.props')\" Label=\"LocalAppDataPlatform\" />
  </ImportGroup>
  <ImportGroup Label=\"PropertySheets\" Condition=\"'$(Configuration)|$(Platform)'=='Release|x64'\">
"

/-- Chunk 5 of the `VCXPROJ_HEADER` template literal. -/
def hdrChunk5 : String :=
"    <Import Project=\"$(UserRootDir)\\Microsoft.Cpp.$(Platform).user.props\" Condition=\"exists('$(UserRootDir)\\Microsoft.Cpp.$(Platform).user.props')\" Label=\"LocalAppDataPlatform\" />
  </ImportGroup>
  <PropertyGroup Label=\"UserMacros\" />
  <PropertyGroup Condition=\"'$(Configuration)|$(Platform)'=='Debug|x64'\">
    <LinkIncremental>true</LinkIncremental>
    <OutDir>$(SolutionDir)bin\\$(Platform)\\$(Configuration)\\</OutDir>
"

/-- Chunk 6 of the `VCXPROJ_HEADER` template literal. -/
def hdrChunk6 : String :=
"    <IntDir>$(SolutionDir)obj\\$(ProjectName)\\$(Platform)\\$(Configuration)\\</IntDir>
  </PropertyGroup>
  <PropertyGroup Condition=\"'$(Configuration)|$(Platform)'=='Release|x64'\">
    <LinkIncremental>false</LinkIncremental>
    <OutDir>$(SolutionDir)bin\\$(Platform)\\$(Configuration)\\</OutDir>
    <IntDir>$(SolutionDir)obj\\$(ProjectName)\\$(Platform)\\$(Configuration)\\</IntDir>
  </PropertyGroup>
"

/-- Chunk 7 of the `VCXPROJ_HEADER` template literal. -/
def hdrChunk7 : String :=
"  <ItemDefinitionGroup Condition=\"'$(Configuration)|$(Platform)'=='Debug|x64'\">
    <ClCompile>
      <PrecompiledHeader>NotUsing</PrecompiledHeader>
      <WarningLevel>Level3</WarningLevel>
      <SDLCheck>true</SDLCheck>
      <PreprocessorDefinitions>_DEBUG;_LIB;LIBHL_EXPORTS;HAVE_CONFIG_H;PCRE2_CODE_UNIT_WIDTH=16;MBEDTLS_USER_CONFIG_FILE=&lt;mbedtls_user_config.h&gt;;%(PreprocessorDefinitions)</PreprocessorDefinitions>
"

/-- Chunk 8 of the `VCXPROJ_HEADER` template literal. -/
def hdrChunk8 : String :=
"      <ConformanceMode>false</ConformanceMode>
      <AdditionalIncludeDirectories>$(ProjectDir)include;$(ProjectDir)vendor\\hashlink\\src;$(ProjectDir)vendor\\hashlink\\include\\pcre;$(ProjectDir)vendor\\hashlink\\include\\libuv\\include;$(ProjectDir)vendor\\hashlink\\include\\libuv\\src;$(ProjectDir)vendor\\hashlink\\include\\mbedtls\\include;$(ProjectDir)vendor\\hashlink\\libs\\ssl;%(AdditionalIncludeDirectories)</AdditionalIncludeDirectories>
"

/-- Chunk 9 of the `VCXPROJ_HEADER` template literal. -/
def hdrChunk9 : String :=
"      <LanguageStandard>stdcpp17</LanguageStandard>
      <MultiProcessorCompilation>true</MultiProcessorCompilation>
      <TreatWarningAsError>false</TreatWarningAsError>
      <DisableSpecificWarnings>4244;4267;4456;4459;4127;4100;4201;4706;%(DisableSpecificWarnings)</DisableSpecificWarnings>
    </ClCompile>
    <Link>
      <SubSystem>Console</SubSystem>
      <GenerateDebugInformation>true</GenerateDebugInformation>
    </Link>
    <Lib>
"

/-- Chunk 10 of the `VCXPROJ_HEADER` template literal. -/
def hdrChunk10 : String :=
"      <AdditionalDependencies>ws2_32.lib;advapi32.lib;psapi.lib;user32.lib;iphlpapi.lib;userenv.lib;winmm.lib;%(AdditionalDependencies)</AdditionalDependencies>
    </Lib>
  </ItemDefinitionGroup>
  <ItemDefinitionGroup Condition=\"'$(Configuration)|$(Platform)'=='Release|x64'\">
    <ClCompile>
      <PrecompiledHeader>NotUsing</PrecompiledHeader>
      <WarningLevel>Level3</WarningLevel>
      <FunctionLevelLinking>true</FunctionLevelLinking>
"

/-- Chunk 11 of the `VCXPROJ_HEADER` template literal. -/
def hdrChunk11 : String :=
"      <IntrinsicFunctions>true</IntrinsicFunctions>
      <SDLCheck>true</SDLCheck>
      <PreprocessorDefinitions>NDEBUG;_LIB;LIBHL_EXPORTS;HAVE_CONFIG_H;PCRE2_CODE_UNIT_WIDTH=16;MBEDTLS_USER_CONFIG_FILE=&lt;mbedtls_user_config.h&gt;;%(PreprocessorDefinitions)</PreprocessorDefinitions>
      <ConformanceMode>false</ConformanceMode>
"

/-- Chunk 12 of the `VCXPROJ_HEADER` template literal. -/
def hdrChunk12 : String :=
"      <AdditionalIncludeDirectories>$(ProjectDir)include;$(ProjectDir)vendor\\hashlink\\src;$(ProjectDir)vendor\\hashlink\\include\\pcre;$(ProjectDir)vendor\\hashlink\\include\\libuv\\include;$(ProjectDir)vendor\\hashlink\\include\\libuv\\src;$(ProjectDir)vendor\\hashlink\\include\\mbedtls\\include;$(ProjectDir)vendor\\hashlink\\libs\\ssl;%(AdditionalIncludeDirectories)</AdditionalIncludeDirectories>
      <LanguageStandard>stdcpp17</LanguageStandard>
"

/-- Chunk 13 of the `VCXPROJ_HEADER` template literal. -/
def hdrChunk13 : String :=
"      <MultiProcessorCompilation>true</MultiProcessorCompilation>
      <TreatWarningAsError>false</TreatWarningAsError>
      <DisableSpecificWarnings>4244;4267;4456;4459;4127;4100;4201;4706;%(DisableSpecificWarnings)</DisableSpecificWarnings>
    </ClCompile>
    <Link>
      <SubSystem>Console</SubSystem>
      <EnableCOMDATFolding>true</EnableCOMDATFolding>
      <OptimizeReferences>true</OptimizeReferences>
"

/-- Chunk 14 of the `VCXPROJ_HEADER` template literal. -/
def hdrChunk14 : String :=
"      <GenerateDebugInformation>true</GenerateDebugInformation>
    </Link>
    <Lib>
      <AdditionalDependencies>ws2_32.lib;advapi32.lib;psapi.lib;user32.lib;iphlpapi.lib;userenv.lib;winmm.lib;%(AdditionalDependencies)</AdditionalDependencies>
    </Lib>
  </ItemDefinitionGroup>
  <ItemGroup>
    <ClInclude Include=\"include\\hlffi.h\" />
  </ItemGroup>
  <ItemGroup>
"

/-- The `VCXPROJ_HEADER` template literal of the script (split into
consecutive chunks so the scanner lemmas below stay kernel-friendly). -/
def VCXPROJ_HEADER : String :=
  hdrChunk0 ++ hdrChunk1 ++ hdrChunk2 ++ hdrChunk3 ++ hdrChunk4 ++ hdrChunk5 ++ hdrChunk6 ++ hdrChunk7 ++ hdrChunk8 ++ hdrChunk9 ++ hdrChunk10 ++ hdrChunk11 ++ hdrChunk12 ++ hdrChunk13 ++ hdrChunk14

/-- The `VCXPROJ_FOOTER` template literal of the script. -/
def VCXPROJ_FOOTER : String :=
"  </ItemGroup>
  <Import Project=\"$(VCTargetsPath)\\Microsoft.Cpp.targets\" />
  <ImportGroup Label=\"ExtensionTargets\">
  </ImportGroup>
</Project>
"

/-- One include-entry line, from `f'    <ClCompile Include="{f}" />\n'`. -/
def entryLine (f : String) : String :=
  "    <ClCompile Include=\"" ++ f ++ "\" />\n"

/-- One group-comment line, from `f'    <!-- {section_name} -->\n'`. -/
def commentLine (name : String) : String :=
  "    <!-- " ++ name ++ " -->\n"

/-- The inner `for f in files` accumulation loop of `main()`. -/
def renderFiles (acc : String) : List String → String
  | [] => acc
  | f :: rest => renderFiles (acc ++ entryLine f) rest

/-- The outer `for section_name, files in sources` accumulation loop of
`main()`: comment line, entry lines, and the blank line after each group. -/
def renderLoop (acc : String) : List (String × List String) → String
  | [] => acc
  | (name, files) :: rest =>
    renderLoop (renderFiles (acc ++ commentLine name) files ++ "\n") rest

/-- The full rendered document: header, accumulated groups, footer. -/
def render (sources : List (String × List String)) : String :=
  renderLoop VCXPROJ_HEADER sources ++ VCXPROJ_FOOTER

/-- The text of one group as it appears in the document (non-accumulating
form, proved equal to what the loops emit). -/
def sectionText (name : String) (files : List String) : String :=
  commentLine name ++ (files.map entryLine).foldr (· ++ ·) "" ++ "\n"

/-- Concatenated text of all groups. -/
def sectionsText : List (String × List String) → String
  | [] => ""
  | g :: rest => sectionText g.1 g.2 ++ sectionsText rest

/-- The fixed output path the script always writes to. -/
def outputPath : String := "hlffi_monolithic.vcxproj"

/-- The newline translation performed by `open(..., 'w', newline='\r\n')`:
every `\n` written is translated to `\r\n`; other characters pass through. -/
def crlfData : List Char → List Char
  | [] => []
  | c :: rest =>
    if c = '\n' then '\r' :: '\n' :: crlfData rest else c :: crlfData rest

/-- The file content after the script writes `doc`: mode `'w'` truncates the
file, so the prior content is discarded entirely, and the written text is the
CRLF translation of `doc`. -/
def writeOutput (_oldContent : String) (doc : String) : String :=
  ⟨crlfData doc.data⟩

/-- `true` iff within the character list every `\n` is directly preceded by
`\r`; `prev` is the character preceding the list. -/
def noBareLF : List Char → Char → Bool
  | [], _ => true
  | c :: rest, prev =>
    ((!(c = '\n')) || (prev = '\r' : Bool)) && noBareLF rest c

/-- `total = sum(len(files) for _, files in sources)`. -/
def totalFiles (sources : List (String × List String)) : Nat :=
  (sources.map fun g => g.2.length).sum

/-- The text `main()` prints to stdout (each `print` call emits its argument
followed by a newline). -/
def summaryOutput (sources : List (String × List String)) : String :=
  "Generated hlffi_monolithic.vcxproj\n" ++
  "Total source files: " ++ toString (totalFiles sources) ++ "\n" ++
  (sources.map fun g =>
    "  " ++ g.1 ++ ": " ++ toString g.2.length ++ " files\n").foldr (· ++ ·) "" ++
  "\nTo use:\n" ++
  "  mv hlffi_monolithic.vcxproj hlffi.vcxproj\n"

/-- Scanner state for checking the rendered document: a tiny pushdown scanner
over the XML dialect the template uses (tags, self-closing tags, comments,
one processing instruction; attribute values in the template never contain a
raw `<` or `>`). -/
inductive MState where
  | text
  | lt
  | bang
  | bangDash
  | comm
  | commDash
  | commDash2
  | pi
  | piq
  | tagName (n : String)
  | tagRest (n : String) (slash : Bool)
  | closeName (n : String)
  | closeRest (n : String)
  | fail
deriving DecidableEq

/-- One scanner step: consumes one character, updates the mode and the stack
of open element names, and reports `1` exactly when a self-closing element
named `ClCompile` (an include-entry) is completed. -/
def stepM : MState × List String → Char → (MState × List String) × Nat :=
  fun s c =>
    match s with
    | (MState.text, st) =>
      if c = '<' then ((MState.lt, st), 0) else ((MState.text, st), 0)
    | (MState.lt, st) =>
      if c = '!' then ((MState.bang, st), 0)
      else if c = '?' then ((MState.pi, st), 0)
      else if c = '/' then ((MState.closeName "", st), 0)
      else if c = '>' then ((MState.fail, st), 0)
      else if c = ' ' then ((MState.fail, st), 0)
      else ((MState.tagName ⟨[c]⟩, st), 0)
    | (MState.bang, st) =>
      if c = '-' then ((MState.bangDash, st), 0) else ((MState.fail, st), 0)
    | (MState.bangDash, st) =>
      if c = '-' then ((MState.comm, st), 0) else ((MState.fail, st), 0)
    | (MState.comm, st) =>
      if c = '-' then ((MState.commDash, st), 0) else ((MState.comm, st), 0)
    | (MState.commDash, st) =>
      if c = '-' then ((MState.commDash2, st), 0) else ((MState.comm, st), 0)
    | (MState.commDash2, st) =>
      if c = '>' then ((MState.text, st), 0)
      else if c = '-' then ((MState.commDash2, st), 0)
      else ((MState.comm, st), 0)
    | (MState.pi, st) =>
      if c = '?' then ((MState.piq, st), 0) else ((MState.pi, st), 0)
    | (MState.piq, st) =>
      if c = '>' then ((MState.text, st), 0)
      else if c = '?' then ((MState.piq, st), 0)
      else ((MState.pi, st), 0)
    | (MState.tagName n, st) =>
      if c = '>' then ((MState.text, n :: st), 0)
      else if c = '/' then ((MState.tagRest n true, st), 0)
      else if c = ' ' then ((MState.tagRest n false, st), 0)
      else ((MState.tagName (n.push c), st), 0)
    | (MState.tagRest n slash, st) =>
      if c = '>' then
        if slash then ((MState.text, st), if n = "ClCompile" then 1 else 0)
        else ((MState.text, n :: st), 0)
      else if c = '/' then ((MState.tagRest n true, st), 0)
      else ((MState.tagRest n false, st), 0)
    | (MState.closeName n, st) =>
      if c = '>' then
        match st with
        | [] => ((MState.fail, []), 0)
        | t :: rest =>
          if t = n then ((MState.text, rest), 0) else ((MState.fail, t :: rest), 0)
      else if c = ' ' then ((MState.closeRest n, st), 0)
      else ((MState.closeName (n.push c), st), 0)
    | (MState.closeRest n, st) =>
      if c = '>' then
        match st with
        | [] => ((MState.fail, []), 0)
        | t :: rest =>
          if t = n then ((MState.text, rest), 0) else ((MState.fail, t :: rest), 0)
      else ((MState.closeRest n, st), 0)
    | (MState.fail, st) => ((MState.fail, st), 0)

/-- Scanner step on state together with the running include-entry count. -/
def stepA (s : (MState × List String) × Nat) (c : Char) : (MState × List String) × Nat :=
  ((stepM s.1 c).1, s.2 + (stepM s.1 c).2)

/-- Run the scanner over a character list. -/
def runA (s : (MState × List String) × Nat) (cs : List Char) : (MState × List String) × Nat :=
  cs.foldl stepA s

/-- Scan a whole document from the initial state. -/
def xmlScan (s : String) : (MState × List String) × Nat :=
  runA ((MState.text, []), 0) s.data

/-- Every element opened in `s` is closed (and closed in matching order):
the scanner ends in text mode with an empty stack of open elements. -/
def xmlBalanced (s : String) : Bool :=
  decide ((xmlScan s).1 = (MState.text, ([] : List String)))

/-- Number of include-entries (self-closing `ClCompile` elements) in `s`. -/
def clCompileCount (s : String) : Nat :=
  (xmlScan s).2

/-- The stack of elements left open by the header (innermost first). -/
def openStack : List String := ["ItemGroup", "Project"]

/-- Names of the seven groups `main()` assembles. -/
def groupNames : List String :=
  [ "HLFFI wrapper code", "HashLink VM core", "HashLink standard library",
    "PCRE2 regex library", "Plugin wrappers", "libuv sources (embedded)",
    "mbedtls sources (embedded - TLS/SSL support)" ]

theorem hdrChunk0_scan :
    runA ((MState.text, []), 0) hdrChunk0.data = ((MState.text, ["ProjectConfiguration", "ItemGroup", "Project"]), 0) := by
  decide

theorem hdrChunk1_scan :
    runA ((MState.text, ["ProjectConfiguration", "ItemGroup", "Project"]), 0) hdrChunk1.data = ((MState.text, ["Project"]), 0) := by
  decide

theorem hdrChunk2_scan :
    runA ((MState.text, ["Project"]), 0) hdrChunk2.data = ((MState.text, ["PropertyGroup", "Project"]), 0) := by
  decide

theorem hdrChunk3_scan :
    runA ((MState.text, ["PropertyGroup", "Project"]), 0) hdrChunk3.data = ((MState.text, ["Project"]), 0) := by
  decide

theorem hdrChunk4_scan :
    runA ((MState.text, ["Project"]), 0) hdrChunk4.data = ((MState.text, ["ImportGroup", "Project"]), 0) := by
  decide

theorem hdrChunk5_scan :
    runA ((MState.text, ["ImportGroup", "Project"]), 0) hdrChunk5.data = ((MState.text, ["PropertyGroup", "Project"]), 0) := by
  decide

theorem hdrChunk6_scan :
    runA ((MState.text, ["PropertyGroup", "Project"]), 0) hdrChunk6.data = ((MState.text, ["Project"]), 0) := by
  decide

theorem hdrChunk7_scan :
    runA ((MState.text, ["Project"]), 0) hdrChunk7.data = ((MState.text, ["ClCompile", "ItemDefinitionGroup", "Project"]), 0) := by
  decide

theorem hdrChunk8_scan :
    runA ((MState.text, ["ClCompile", "ItemDefinitionGroup", "Project"]), 0) hdrChunk8.data = ((MState.text, ["ClCompile", "ItemDefinitionGroup", "Project"]), 0) := by
  decide

theorem hdrChunk9_scan :
    runA ((MState.text, ["ClCompile", "ItemDefinitionGroup", "Project"]), 0) hdrChunk9.data = ((MState.text, ["Lib", "ItemDefinitionGroup", "Project"]), 0) := by
  decide

theorem hdrChunk10_scan :
    runA ((MState.text, ["Lib", "ItemDefinitionGroup", "Project"]), 0) hdrChunk10.data = ((MState.text, ["ClCompile", "ItemDefinitionGroup", "Project"]), 0) := by
  decide

theorem hdrChunk11_scan :
    runA ((MState.text, ["ClCompile", "ItemDefinitionGroup", "Project"]), 0) hdrChunk11.data = ((MState.text, ["ClCompile", "ItemDefinitionGroup", "Project"]), 0) := by
  decide

theorem hdrChunk12_scan :
    runA ((MState.text, ["ClCompile", "ItemDefinitionGroup", "Project"]), 0) hdrChunk12.data = ((MState.text, ["ClCompile", "ItemDefinitionGroup", "Project"]), 0) := by
  decide

theorem hdrChunk13_scan :
    runA ((MState.text, ["ClCompile", "ItemDefinitionGroup", "Project"]), 0) hdrChunk13.data = ((MState.text, ["Link", "ItemDefinitionGroup", "Project"]), 0) := by
  decide

theorem hdrChunk14_scan :
    runA ((MState.text, ["Link", "ItemDefinitionGroup", "Project"]), 0) hdrChunk14.data = ((MState.text, ["ItemGroup", "Project"]), 0) := by
  decide



theorem runA_append (s : (MState × List String) × Nat) (a b : List Char) :
    runA s (a ++ b) = runA (runA s a) b := by
  simp only [runA, List.foldl_append]

theorem runA_count (cs : List Char) (ms : MState × List String) (k : Nat) :
    runA (ms, k) cs = ((runA (ms, 0) cs).1, k + (runA (ms, 0) cs).2) := by
  induction cs generalizing ms k with
  | nil => simp [runA]
  | cons c cs ih =>
    have h1 : runA (ms, k) (c :: cs) = runA ((stepM ms c).1, k + (stepM ms c).2) cs := rfl
    have h2 : runA (ms, 0) (c :: cs) = runA ((stepM ms c).1, 0 + (stepM ms c).2) cs := rfl
    rw [h1, h2, ih ((stepM ms c).1) (k + (stepM ms c).2),
      ih ((stepM ms c).1) (0 + (stepM ms c).2)]
    exact Prod.ext rfl (by omega)

theorem header_scan :
    runA ((MState.text, []), 0) VCXPROJ_HEADER.data = ((MState.text, openStack), 0) := by
  simp only [VCXPROJ_HEADER, openStack, String.data_append, runA_append, hdrChunk0_scan,
    hdrChunk1_scan, hdrChunk2_scan, hdrChunk3_scan, hdrChunk4_scan, hdrChunk5_scan,
    hdrChunk6_scan, hdrChunk7_scan, hdrChunk8_scan, hdrChunk9_scan, hdrChunk10_scan,
    hdrChunk11_scan, hdrChunk12_scan, hdrChunk13_scan, hdrChunk14_scan]

theorem footer_scan :
    runA ((MState.text, openStack), 0) VCXPROJ_FOOTER.data = ((MState.text, []), 0) := by
  decide


theorem comment_scan (n : String) (hn : n ∈ groupNames) :
    runA ((MState.text, openStack), 0) (commentLine n).data
      = ((MState.text, openStack), 0) := by
  fin_cases hn <;> decide

theorem runA_tagRest (cs : List Char) (h : ∀ c ∈ cs, c ≠ '>') (b : Bool)
    (st : List String) (n : String) :
    ∃ b', runA ((MState.tagRest n b, st), 0) cs = ((MState.tagRest n b', st), 0) := by
  induction cs generalizing b with
  | nil => exact ⟨b, rfl⟩
  | cons c cs ih =>
    have hc : c ≠ '>' := h c (List.mem_cons_self c cs)
    have hrest : ∀ x ∈ cs, x ≠ '>' := fun x hx => h x (List.mem_cons_of_mem _ hx)
    by_cases hsl : c = '/'
    · have hstep : runA ((MState.tagRest n b, st), 0) (c :: cs)
          = runA ((MState.tagRest n true, st), 0) cs := by
        simp [runA, stepA, stepM, hc, hsl]
      rw [hstep]; exact ih hrest true
    · have hstep : runA ((MState.tagRest n b, st), 0) (c :: cs)
          = runA ((MState.tagRest n false, st), 0) cs := by
        simp [runA, stepA, stepM, hc, hsl]
      rw [hstep]; exact ih hrest false

theorem entry_scan (f : String) (hf : '>' ∉ f.data) :
    runA ((MState.text, openStack), 0) (entryLine f).data
      = ((MState.text, openStack), 1) := by
  have hpre : runA ((MState.text, openStack), 0) ("    <ClCompile Include=\"").data
      = ((MState.tagRest "ClCompile" false, openStack), 0) := by decide
  have hpost : ∀ b, runA ((MState.tagRest "ClCompile" b, openStack), 0) ("\" />\n").data
      = ((MState.text, openStack), 1) := by
    intro b; cases b <;> decide
  obtain ⟨b', hmid⟩ :=
    runA_tagRest f.data (fun c hc he => hf (he ▸ hc)) false openStack "ClCompile"
  have hsplit : (entryLine f).data
      = ("    <ClCompile Include=\"").data ++ f.data ++ ("\" />\n").data := by
    simp [entryLine]
  rw [hsplit, runA_append, runA_append, hpre, hmid, hpost b']

theorem files_scan (files : List String) (hf : ∀ f ∈ files, '>' ∉ f.data) :
    runA ((MState.text, openStack), 0) ((files.map entryLine).foldr (· ++ ·) "").data
      = ((MState.text, openStack), files.length) := by
  induction files with
  | nil => rfl
  | cons f fs ih =>
    have hsplit : (((f :: fs).map entryLine).foldr (· ++ ·) "").data
        = (entryLine f).data ++ ((fs.map entryLine).foldr (· ++ ·) "").data := by
      simp [List.map_cons]
    rw [hsplit, runA_append, entry_scan f (hf f (List.mem_cons_self f fs)),
      runA_count _ _ 1, ih (fun x hx => hf x (List.mem_cons_of_mem _ hx))]
    simp [Nat.add_comm]

theorem section_scan (n : String) (files : List String) (hn : n ∈ groupNames)
    (hf : ∀ f ∈ files, '>' ∉ f.data) :
    runA ((MState.text, openStack), 0) (sectionText n files).data
      = ((MState.text, openStack), files.length) := by
  have hnl0 : runA ((MState.text, openStack), 0) ("\n").data
      = ((MState.text, openStack), 0) := by decide
  have hnl : ∀ k, runA ((MState.text, openStack), k) ("\n").data
      = ((MState.text, openStack), k) := by
    intro k; rw [runA_count, hnl0]; rfl
  have hsplit : (sectionText n files).data
      = (commentLine n).data ++ ((files.map entryLine).foldr (· ++ ·) "").data
        ++ ("\n").data := by
    simp [sectionText]
  rw [hsplit, runA_append, runA_append, comment_scan n hn, files_scan files hf, hnl]

theorem sections_scan (sources : List (String × List String))
    (hn : ∀ g ∈ sources, g.1 ∈ groupNames)
    (hf : ∀ g ∈ sources, ∀ f ∈ g.2, '>' ∉ f.data) :
    runA ((MState.text, openStack), 0) (sectionsText sources).data
      = ((MState.text, openStack), totalFiles sources) := by
  induction sources with
  | nil => rfl
  | cons g rest ih =>
    have hsplit : (sectionsText (g :: rest)).data
        = (sectionText g.1 g.2).data ++ (sectionsText rest).data := by
      simp [sectionsText]
    rw [hsplit, runA_append,
      section_scan g.1 g.2 (hn g (List.mem_cons_self g rest))
        (hf g (List.mem_cons_self g rest)),
      runA_count _ _ g.2.length,
      ih (fun x hx => hn x (List.mem_cons_of_mem _ hx))
        (fun x hx => hf x (List.mem_cons_of_mem _ hx))]
    simp [totalFiles]

theorem renderFiles_eq (acc : String) (files : List String) :
    renderFiles acc files = acc ++ (files.map entryLine).foldr (· ++ ·) "" := by
  induction files generalizing acc with
  | nil => simp [renderFiles]
  | cons f fs ih => simp [renderFiles, ih, String.append_assoc]

theorem renderLoop_eq (acc : String) (sources : List (String × List String)) :
    renderLoop acc sources = acc ++ sectionsText sources := by
  induction sources generalizing acc with
  | nil => simp [renderLoop, sectionsText]
  | cons g rest ih =>
    obtain ⟨n, files⟩ := g
    simp [renderLoop, sectionsText, sectionText, renderFiles_eq, ih, String.append_assoc]

theorem render_eq (sources : List (String × List String)) :
    render sources = VCXPROJ_HEADER ++ sectionsText sources ++ VCXPROJ_FOOTER := by
  simp [render, renderLoop_eq]

theorem render_scan (sources : List (String × List String))
    (hn : ∀ g ∈ sources, g.1 ∈ groupNames)
    (hf : ∀ g ∈ sources, ∀ f ∈ g.2, '>' ∉ f.data) :
    xmlScan (render sources) = ((MState.text, []), totalFiles sources) := by
  have hsplit : (render sources).data
      = VCXPROJ_HEADER.data ++ (sectionsText sources).data ++ VCXPROJ_FOOTER.data := by
    simp [render_eq]
  rw [xmlScan, hsplit, runA_append, runA_append, header_scan, sections_scan sources hn hf,
    runA_count _ _ (totalFiles sources), footer_scan]
  simp

theorem string_eq_iff_data (a b : String) : a = b ↔ a.data = b.data :=
  ⟨fun h => h ▸ rfl, String.ext⟩

theorem fnmatchFuel_congr (f1 : Nat) : ∀ (f2 : Nat) (p c : List Char),
    p.length + c.length ≤ f1 → p.length + c.length ≤ f2 →
    fnmatchFuel f1 p c = fnmatchFuel f2 p c := by
  induction f1 with
  | zero =>
    intro f2 p c h1 h2
    cases p with
    | nil =>
      cases c with
      | nil => cases f2 <;> rfl
      | cons ch ct => cases f2 <;> rfl
    | cons ph pt => simp [List.length_cons] at h1
  | succ f1 ih =>
    intro f2 p c h1 h2
    cases p with
    | nil =>
      cases c with
      | nil => cases f2 <;> rfl
      | cons ch ct => cases f2 <;> rfl
    | cons ph pt =>
      cases f2 with
      | zero => simp [List.length_cons] at h2
      | succ f2 =>
        have hl1 : pt.length + c.length ≤ f1 := by
          simp [List.length_cons] at h1; omega
        have hl2 : pt.length + c.length ≤ f2 := by
          simp [List.length_cons] at h2; omega
        cases c with
        | nil =>
          show (if ph = '*' then fnmatchFuel f1 pt [] else false)
              = (if ph = '*' then fnmatchFuel f2 pt [] else false)
          by_cases hp : ph = '*'
          · rw [if_pos hp, if_pos hp, ih f2 pt [] hl1 hl2]
          · rw [if_neg hp, if_neg hp]
        | cons ch ct =>
          simp only [List.length_cons] at h1 h2
          have hm1 : pt.length + 1 + ct.length ≤ f1 := by omega
          have hm2 : pt.length + 1 + ct.length ≤ f2 := by omega
          have hn1 : pt.length + ct.length ≤ f1 := by omega
          have hn2 : pt.length + ct.length ≤ f2 := by omega
          show (if ph = '*' then
                  fnmatchFuel f1 pt (ch :: ct) || fnmatchFuel f1 (ph :: pt) ct
                else if ph = '?' then fnmatchFuel f1 pt ct
                else if ph = ch then fnmatchFuel f1 pt ct else false)
              = (if ph = '*' then
                  fnmatchFuel f2 pt (ch :: ct) || fnmatchFuel f2 (ph :: pt) ct
                else if ph = '?' then fnmatchFuel f2 pt ct
                else if ph = ch then fnmatchFuel f2 pt ct else false)
          by_cases hp : ph = '*'
          · rw [if_pos hp, if_pos hp, ih f2 pt (ch :: ct) hl1 hl2, ih f2 (ph :: pt) ct hm1 hm2]
          · by_cases hq : ph = '?'
            · rw [if_neg hp, if_neg hp, if_pos hq, if_pos hq, ih f2 pt ct hn1 hn2]
            · by_cases hc : ph = ch
              · rw [if_neg hp, if_neg hp, if_neg hq, if_neg hq, if_pos hc, if_pos hc,
                  ih f2 pt ct hn1 hn2]
              · rw [if_neg hp, if_neg hp, if_neg hq, if_neg hq, if_neg hc, if_neg hc]

theorem fnmatchList_nil (c : List Char) : fnmatchList [] c = c.isEmpty := by
  cases c <;> rfl

theorem fnmatchList_cons_nil (p : Char) (ps : List Char) :
    fnmatchList (p :: ps) [] = if p = '*' then fnmatchList ps [] else false := by
  rfl

theorem fnmatchFuel_step (fuel : Nat) (p ch : Char) (ps ct : List Char)
    (h : ps.length + ct.length + 1 ≤ fuel) :
    fnmatchFuel (fuel + 1) (p :: ps) (ch :: ct) =
      (if p = '*' then fnmatchList ps (ch :: ct) || fnmatchList (p :: ps) ct
       else if p = '?' then fnmatchList ps ct
       else if p = ch then fnmatchList ps ct else false) := by
  show (if p = '*' then fnmatchFuel fuel ps (ch :: ct) || fnmatchFuel fuel (p :: ps) ct
        else if p = '?' then fnmatchFuel fuel ps ct
        else if p = ch then fnmatchFuel fuel ps ct else false) = _
  unfold fnmatchList
  by_cases hp : p = '*'
  · rw [if_pos hp, if_pos hp,
      fnmatchFuel_congr fuel (ps.length + (ch :: ct).length) ps (ch :: ct)
        (by simp only [List.length_cons]; omega) (Nat.le_refl _),
      fnmatchFuel_congr fuel ((p :: ps).length + ct.length) (p :: ps) ct
        (by simp only [List.length_cons]; omega) (Nat.le_refl _)]
  · by_cases hq : p = '?'
    · rw [if_neg hp, if_neg hp, if_pos hq, if_pos hq,
        fnmatchFuel_congr fuel (ps.length + ct.length) ps ct
          (by omega) (Nat.le_refl _)]
    · by_cases hc : p = ch
      · rw [if_neg hp, if_neg hp, if_neg hq, if_neg hq, if_pos hc, if_pos hc,
          fnmatchFuel_congr fuel (ps.length + ct.length) ps ct
            (by omega) (Nat.le_refl _)]
      · rw [if_neg hp, if_neg hp, if_neg hq, if_neg hq, if_neg hc, if_neg hc]

theorem fnmatchList_cons_cons (p ch : Char) (ps ct : List Char) :
    fnmatchList (p :: ps) (ch :: ct) =
      (if p = '*' then fnmatchList ps (ch :: ct) || fnmatchList (p :: ps) ct
       else if p = '?' then fnmatchList ps ct
       else if p = ch then fnmatchList ps ct else false) :=
  fnmatchFuel_step (ps.length + 1 + ct.length) p ch ps ct (by omega)

theorem matchPathFuel_congr (f1 : Nat) : ∀ (f2 : Nat) (ps fs : List String),
    ps.length + fs.length ≤ f1 → ps.length + fs.length ≤ f2 →
    matchPathFuel f1 ps fs = matchPathFuel f2 ps fs := by
  induction f1 with
  | zero =>
    intro f2 ps fs h1 h2
    cases ps with
    | nil =>
      cases fs with
      | nil => cases f2 <;> rfl
      | cons f ft => cases f2 <;> rfl
    | cons p pt => simp [List.length_cons] at h1
  | succ f1 ih =>
    intro f2 ps fs h1 h2
    cases ps with
    | nil =>
      cases fs with
      | nil => cases f2 <;> rfl
      | cons f ft => cases f2 <;> rfl
    | cons p pt =>
      cases f2 with
      | zero => simp [List.length_cons] at h2
      | succ f2 =>
        have hl1 : pt.length + fs.length ≤ f1 := by
          simp [List.length_cons] at h1; omega
        have hl2 : pt.length + fs.length ≤ f2 := by
          simp [List.length_cons] at h2; omega
        cases fs with
        | nil =>
          show (if p = "**" then matchPathFuel f1 pt [] || false else false)
              = (if p = "**" then matchPathFuel f2 pt [] || false else false)
          by_cases hp : p = "**"
          · rw [if_pos hp, if_pos hp, ih f2 pt [] hl1 hl2]
          · rw [if_neg hp, if_neg hp]
        | cons f0 ft =>
          simp only [List.length_cons] at h1 h2
          have hm1 : pt.length + 1 + ft.length ≤ f1 := by omega
          have hm2 : pt.length + 1 + ft.length ≤ f2 := by omega
          have hn1 : pt.length + ft.length ≤ f1 := by omega
          have hn2 : pt.length + ft.length ≤ f2 := by omega
          show (if p = "**" then
                  matchPathFuel f1 pt (f0 :: ft) || matchPathFuel f1 (p :: pt) ft
                else globComponent p f0 && matchPathFuel f1 pt ft)
              = (if p = "**" then
                  matchPathFuel f2 pt (f0 :: ft) || matchPathFuel f2 (p :: pt) ft
                else globComponent p f0 && matchPathFuel f2 pt ft)
          by_cases hp : p = "**"
          · rw [if_pos hp, if_pos hp, ih f2 pt (f0 :: ft) hl1 hl2,
              ih f2 (p :: pt) ft hm1 hm2]
          · rw [if_neg hp, if_neg hp, ih f2 pt ft hn1 hn2]

theorem matchPath_nil (fs : List String) : matchPath [] fs = fs.isEmpty := by
  cases fs <;> rfl

theorem matchPath_cons_nil (p : String) (ps : List String) :
    matchPath (p :: ps) [] = if p = "**" then matchPath ps [] else false := by
  show (if p = "**" then matchPathFuel (ps.length + 0) ps [] || false else false) = _
  by_cases hp : p = "**"
  · rw [if_pos hp, if_pos hp, Bool.or_false]; rfl
  · rw [if_neg hp, if_neg hp]

theorem matchPathFuel_step (fuel : Nat) (p f0 : String) (ps ft : List String)
    (h : ps.length + ft.length + 1 ≤ fuel) :
    matchPathFuel (fuel + 1) (p :: ps) (f0 :: ft) =
      (if p = "**" then matchPath ps (f0 :: ft) || matchPath (p :: ps) ft
       else globComponent p f0 && matchPath ps ft) := by
  show (if p = "**" then matchPathFuel fuel ps (f0 :: ft) || matchPathFuel fuel (p :: ps) ft
        else globComponent p f0 && matchPathFuel fuel ps ft) = _
  unfold matchPath
  by_cases hp : p = "**"
  · rw [if_pos hp, if_pos hp,
      matchPathFuel_congr fuel (ps.length + (f0 :: ft).length) ps (f0 :: ft)
        (by simp only [List.length_cons]; omega) (Nat.le_refl _),
      matchPathFuel_congr fuel ((p :: ps).length + ft.length) (p :: ps) ft
        (by simp only [List.length_cons]; omega) (Nat.le_refl _)]
  · rw [if_neg hp, if_neg hp,
      matchPathFuel_congr fuel (ps.length + ft.length) ps ft
        (by omega) (Nat.le_refl _)]

theorem matchPath_cons_cons (p f0 : String) (ps ft : List String) :
    matchPath (p :: ps) (f0 :: ft) =
      (if p = "**" then matchPath ps (f0 :: ft) || matchPath (p :: ps) ft
       else globComponent p f0 && matchPath ps ft) :=
  matchPathFuel_step (ps.length + 1 + ft.length) p f0 ps ft (by omega)

/-- A pattern with no wildcard characters matches exactly itself. -/
theorem fnmatch_literal (p : List Char) (hp : ∀ ch ∈ p, ch ≠ '*' ∧ ch ≠ '?') :
    ∀ c : List Char, (fnmatchList p c = true ↔ p = c) := by
  induction p with
  | nil => intro c; cases c <;> simp [fnmatchList_nil]
  | cons ph pt ih =>
    intro c
    have hph := hp ph (List.mem_cons_self ph pt)
    have hpt : ∀ ch ∈ pt, ch ≠ '*' ∧ ch ≠ '?' :=
      fun ch hch => hp ch (List.mem_cons_of_mem _ hch)
    cases c with
    | nil => rw [fnmatchList_cons_nil, if_neg hph.1]; simp
    | cons ch ct =>
      rw [fnmatchList_cons_cons]
      by_cases he : ph = ch
      · subst he
        rw [if_neg hph.1, if_neg hph.2, if_pos rfl, ih hpt ct]
        simp
      · rw [if_neg hph.1, if_neg hph.2, if_neg he]
        simp [he]

/-- A wildcard-free pattern component matches exactly the identical name. -/
theorem globComponent_literal (pat name : String)
    (hp : ∀ ch ∈ pat.data, ch ≠ '*' ∧ ch ≠ '?') :
    (globComponent pat name = true ↔ pat = name) := by
  unfold globComponent
  by_cases hd : (startsWithDot name && !startsWithDot pat) = true
  · rw [if_pos hd]
    constructor
    · intro h; exact absurd h (by simp)
    · intro h; subst h
      simp only [Bool.and_eq_true] at hd
      obtain ⟨h1, h2⟩ := hd
      rw [h1] at h2; exact absurd h2 (by simp)
  · rw [if_neg hd]
    rw [fnmatch_literal pat.data hp name.data]
    exact (string_eq_iff_data pat name).symm

theorem star_mem_doublestar : '*' ∈ ("**").data := by decide

/-- A wildcard-free component is never the recursive pattern. -/
theorem literal_ne_doublestar (c : String) (hc : ∀ ch ∈ c.data, ch ≠ '*' ∧ ch ≠ '?') :
    c ≠ "**" := by
  intro he
  exact (hc '*' (he ▸ star_mem_doublestar)).1 rfl

/-- Whatever a pattern starting with wildcard-free components matches
begins with exactly those components. -/
theorem prefix_of_matchPath_literal (bs : List String)
    (hb : ∀ c ∈ bs, ∀ ch ∈ c.data, ch ≠ '*' ∧ ch ≠ '?') :
    ∀ (ps f : List String), matchPath (bs ++ ps) f = true → bs <+: f := by
  induction bs with
  | nil => intro ps f _; exact List.nil_prefix
  | cons b bt ih =>
    intro ps f h
    have hbl := hb b (List.mem_cons_self b bt)
    have hbt : ∀ c ∈ bt, ∀ ch ∈ c.data, ch ≠ '*' ∧ ch ≠ '?' :=
      fun c hc => hb c (List.mem_cons_of_mem _ hc)
    have hne : b ≠ "**" := literal_ne_doublestar b hbl
    rw [List.cons_append] at h
    cases f with
    | nil => rw [matchPath_cons_nil, if_neg hne] at h; exact absurd h (by simp)
    | cons f0 ft =>
      rw [matchPath_cons_cons, if_neg hne] at h
      simp only [Bool.and_eq_true] at h
      obtain ⟨h1, h2⟩ := h
      have hbf : b = f0 := (globComponent_literal b f0 hbl).mp h1
      subst hbf
      exact List.cons_prefix_cons.mpr ⟨rfl, ih hbt ps ft h2⟩

/-- Anything matched by a `**`-free pattern lies at exactly the pattern's
depth: such patterns never descend into further subdirectories. -/
theorem length_of_matchPath (ps : List String) (hss : "**" ∉ ps) :
    ∀ f, matchPath ps f = true → f.length = ps.length := by
  induction ps with
  | nil =>
    intro f h
    cases f with
    | nil => rfl
    | cons f0 ft => rw [matchPath_nil] at h; simp at h
  | cons p pt ih =>
    intro f h
    have hp : p ≠ "**" := fun he => hss (he ▸ List.mem_cons_self p pt)
    cases f with
    | nil => rw [matchPath_cons_nil, if_neg hp] at h; simp at h
    | cons f0 ft =>
      rw [matchPath_cons_cons, if_neg hp] at h
      simp only [Bool.and_eq_true] at h
      simp [ih (fun hm => hss (List.mem_cons_of_mem _ hm)) ft h.2]

/-- Extending a match on both sides by the same wildcard-free literal
components preserves matching. -/
theorem matchPath_append_of_literal (bs : List String)
    (hb : ∀ c ∈ bs, ∀ ch ∈ c.data, ch ≠ '*' ∧ ch ≠ '?') :
    ∀ ps f, matchPath ps f = true → matchPath (bs ++ ps) (bs ++ f) = true := by
  induction bs with
  | nil => intro ps f h; simpa using h
  | cons b bt ih =>
    intro ps f h
    have hbl := hb b (List.mem_cons_self b bt)
    have hbt : ∀ c ∈ bt, ∀ ch ∈ c.data, ch ≠ '*' ∧ ch ≠ '?' :=
      fun c hc => hb c (List.mem_cons_of_mem _ hc)
    have hne : b ≠ "**" := literal_ne_doublestar b hbl
    rw [List.cons_append, List.cons_append, matchPath_cons_cons, if_neg hne]
    simp only [Bool.and_eq_true]
    exact ⟨(globComponent_literal b b hbl).mpr rfl, ih hbt ps f h⟩

theorem mem_find_sources (fs : List (List String)) (base pat p : String) :
    p ∈ find_sources fs base pat ↔
      ∃ f, f ∈ fs ∧ matchPath (splitSlash base ++ splitSlash pat) f = true ∧
        p = replSlash (joinSlash f) := by
  simp only [find_sources, List.mem_mergeSort, List.mem_map, List.mem_filter]
  constructor
  · rintro ⟨f, ⟨hmem, hmatch⟩, rfl⟩; exact ⟨f, hmem, hmatch, rfl⟩
  · rintro ⟨f, hmem, hmatch, rfl⟩; exact ⟨f, ⟨hmem, hmatch⟩, rfl⟩

theorem find_sources_sorted (fs : List (List String)) (base pat : String) :
    List.Sorted (· ≤ ·) (find_sources fs base pat) :=
  List.sorted_mergeSort' _

/-- The discovered list depends only on the multiset of listing entries:
traversal order is cancelled by the final sort. -/
theorem find_sources_perm (fs₁ fs₂ : List (List String)) (base pat : String)
    (h : fs₁.Perm fs₂) : find_sources fs₁ base pat = find_sources fs₂ base pat := by
  unfold find_sources
  exact List.eq_of_perm_of_sorted
    ((List.mergeSort_perm _ _).trans
      (((h.filter _).map _).trans (List.mergeSort_perm _ _).symm))
    (List.sorted_mergeSort' _) (List.sorted_mergeSort' _)

theorem mem_replSlash (s : String) (ch : Char) (h : ch ∈ (replSlash s).data) :
    ch = '\\' ∨ ch ∈ s.data := by
  simp only [replSlash] at h
  obtain ⟨c, hc, he⟩ := List.mem_map.mp h
  by_cases h' : c = '/'
  · rw [if_pos h'] at he; exact Or.inl he.symm
  · rw [if_neg h'] at he; exact Or.inr (he ▸ hc)

theorem replSlash_no_slash (s : String) : '/' ∉ (replSlash s).data := by
  intro h
  rcases mem_replSlash s '/' h with h' | h'
  · exact absurd h' (by decide)
  · simp only [replSlash] at h
    obtain ⟨c, hc, he⟩ := List.mem_map.mp h
    by_cases h2 : c = '/'
    · rw [if_pos h2] at he; exact absurd he (by decide)
    · rw [if_neg h2] at he; exact h2 he

theorem mem_joinSlash (f : List String) (ch : Char) :
    ch ∈ (joinSlash f).data → ch = '/' ∨ ∃ c ∈ f, ch ∈ c.data := by
  induction f with
  | nil => intro h; simp [joinSlash] at h
  | cons c rest ih =>
    cases rest with
    | nil =>
      intro h
      exact Or.inr ⟨c, List.mem_cons_self c [], h⟩
    | cons c2 rest2 =>
      intro h
      rw [show joinSlash (c :: c2 :: rest2) = c ++ "/" ++ joinSlash (c2 :: rest2) from rfl] at h
      simp only [String.data_append, List.mem_append] at h
      rcases h with (h | h) | h
      · exact Or.inr ⟨c, List.mem_cons_self c _, h⟩
      · left
        have : ch ∈ ['/'] := h
        simpa using this
      · rcases ih h with h' | ⟨c', hc', hch⟩
        · exact Or.inl h'
        · exact Or.inr ⟨c', List.mem_cons_of_mem _ hc', hch⟩

/-- A character other than the two separators occurs in a discovered path
only if it occurs in a component of the original listing entry. -/
theorem mem_discovered_char (f : List String) (ch : Char) (h1 : ch ≠ '\\')
    (h2 : ch ≠ '/') (h : ch ∈ (replSlash (joinSlash f)).data) :
    ∃ c ∈ f, ch ∈ c.data := by
  rcases mem_replSlash _ _ h with h' | h'
  · exact absurd h' h1
  · rcases mem_joinSlash f ch h' with h'' | h''
    · exact absurd h'' h2
    · exact h''

theorem sectionText_occurs (sources : List (String × List String))
    (g : String × List String) (hg : g ∈ sources) :
    (sectionText g.1 g.2).data <:+: (sectionsText sources).data := by
  induction sources with
  | nil => cases hg
  | cons g' rest ih =>
    rcases List.mem_cons.mp hg with h | h
    · subst h
      rw [show sectionsText (g :: rest) = sectionText g.1 g.2 ++ sectionsText rest from rfl,
        String.data_append]
      exact (List.prefix_append _ _).isInfix
    · rw [show sectionsText (g' :: rest) = sectionText g'.1 g'.2 ++ sectionsText rest from rfl,
        String.data_append]
      exact (ih h).trans (List.suffix_append _ _).isInfix

theorem infix_render_of_infix_sections (sources : List (String × List String))
    (l : List Char) (h : l <:+: (sectionsText sources).data) :
    l <:+: (render sources).data := by
  rw [render_eq]
  simp only [String.data_append]
  exact h.trans (((List.suffix_append _ _).isInfix).trans (List.prefix_append _ _).isInfix)

/-- Every group's comment line occurs in the rendered document. -/
theorem commentLine_infix_render (sources : List (String × List String))
    (g : String × List String) (hg : g ∈ sources) :
    (commentLine g.1).data <:+: (render sources).data := by
  apply infix_render_of_infix_sections
  refine List.IsInfix.trans ?_ (sectionText_occurs sources g hg)
  rw [show sectionText g.1 g.2
      = commentLine g.1 ++ (g.2.map entryLine).foldr (· ++ ·) "" ++ "\n" from rfl]
  simp only [String.data_append]
  exact ((List.prefix_append _ _).trans (List.prefix_append _ _)).isInfix

theorem entryLine_infix_files (files : List String) (f : String) (hf : f ∈ files) :
    (entryLine f).data <:+: ((files.map entryLine).foldr (· ++ ·) "").data := by
  induction files with
  | nil => cases hf
  | cons f' rest ih =>
    rcases List.mem_cons.mp hf with h | h
    · subst h
      rw [show ((f :: rest).map entryLine).foldr (· ++ ·) ""
          = entryLine f ++ (rest.map entryLine).foldr (· ++ ·) "" from rfl,
        String.data_append]
      exact (List.prefix_append _ _).isInfix
    · rw [show ((f' :: rest).map entryLine).foldr (· ++ ·) ""
          = entryLine f' ++ (rest.map entryLine).foldr (· ++ ·) "" from rfl,
        String.data_append]
      exact (ih h).trans (List.suffix_append _ _).isInfix

/-- Every file of every group contributes its include-entry line to the
rendered document. -/
theorem entryLine_infix_render (sources : List (String × List String))
    (g : String × List String) (f : String) (hg : g ∈ sources) (hf : f ∈ g.2) :
    (entryLine f).data <:+: (render sources).data := by
  apply infix_render_of_infix_sections
  refine List.IsInfix.trans ?_ (sectionText_occurs sources g hg)
  rw [show sectionText g.1 g.2
      = commentLine g.1 ++ (g.2.map entryLine).foldr (· ++ ·) "" ++ "\n" from rfl]
  simp only [String.data_append]
  exact (entryLine_infix_files g.2 f hf).trans
    (((List.suffix_append _ _).isInfix).trans (List.prefix_append _ _).isInfix)

theorem crlfData_append (a b : List Char) :
    crlfData (a ++ b) = crlfData a ++ crlfData b := by
  induction a with
  | nil => rfl
  | cons c rest ih => by_cases h : c = '\n' <;> simp [crlfData, h, ih]

theorem noBareLF_crlfData (s : List Char) :
    ∀ prev, noBareLF (crlfData s) prev = true := by
  induction s with
  | nil => intro prev; rfl
  | cons c rest ih =>
    intro prev
    by_cases h : c = '\n'
    · subst h
      simp [crlfData, noBareLF, ih]
    · simp [crlfData, noBareLF, h, ih]

/-- Removing all carriage returns from the CRLF translation recovers the
carriage-return-free part of the original text. -/
theorem crlfData_filter (s : List Char) :
    (crlfData s).filter (fun c => !(c = '\r')) = s.filter (fun c => !(c = '\r')) := by
  induction s with
  | nil => rfl
  | cons c rest ih =>
    by_cases h : c = '\n'
    · subst h; simp [crlfData, ih]
    · by_cases h2 : c = '\r' <;> simp [crlfData, h, h2, ih]

/-- If no listing entry starts with the (wildcard-free) first component of
the base path, discovery returns nothing. -/
theorem find_sources_nil_of_head (fs : List (List String)) (base pat b0 : String)
    (bs : List String) (hsplit : splitSlash base = b0 :: bs)
    (hb0 : ∀ ch ∈ b0.data, ch ≠ '*' ∧ ch ≠ '?')
    (h : ∀ f ∈ fs, f.head? ≠ some b0) :
    find_sources fs base pat = [] := by
  have hfil : (fs.filter fun f => matchPath (splitSlash base ++ splitSlash pat) f) = [] := by
    rw [List.filter_eq_nil_iff]
    intro f hf hmatch
    have hm : matchPath (splitSlash base ++ splitSlash pat) f = true := hmatch
    rw [hsplit, List.cons_append] at hm
    have hne : b0 ≠ "**" := literal_ne_doublestar b0 hb0
    cases f with
    | nil => rw [matchPath_cons_nil, if_neg hne] at hm; simp at hm
    | cons f0 ft =>
      rw [matchPath_cons_cons, if_neg hne] at hm
      simp only [Bool.and_eq_true] at hm
      have hb0f : b0 = f0 := (globComponent_literal b0 f0 hb0).mp hm.1
      exact h (f0 :: ft) hf (by rw [List.head?_cons, hb0f])
  simp [find_sources, hfil]

theorem buildSources_names (fs : List (List String)) :
    ∀ g ∈ buildSources fs, g.1 ∈ groupNames := by
  intro g hg
  fin_cases hg <;> simp [groupNames]

theorem discovered_files_safe (fs : List (List String))
    (hv : ∀ p ∈ fs, ∀ c ∈ p, '>' ∉ c.data) (base pat : String) :
    ∀ f ∈ find_sources fs base pat, '>' ∉ f.data := by
  intro f hf hmem
  obtain ⟨e, he, _, rfl⟩ := (mem_find_sources fs base pat f).mp hf
  obtain ⟨c, hc, hch⟩ := mem_discovered_char e '>' (by decide) (by decide) hmem
  exact hv e he c hc hch

theorem buildSources_files_safe (fs : List (List String))
    (hv : ∀ p ∈ fs, ∀ c ∈ p, '>' ∉ c.data) :
    ∀ g ∈ buildSources fs, ∀ f ∈ g.2, '>' ∉ f.data := by
  intro g hg
  fin_cases hg
  · intro f hf; fin_cases hf <;> decide
  · intro f hf; fin_cases hf <;> decide
  · exact discovered_files_safe fs hv _ _
  · exact discovered_files_safe fs hv _ _
  · intro f hf; fin_cases hf <;> decide
  · intro f hf
    rcases List.mem_append.mp hf with h | h
    · exact discovered_files_safe fs hv _ _ f h
    · exact discovered_files_safe fs hv _ _ f h
  · exact discovered_files_safe fs hv _ _

theorem xmlScan_render_buildSources (fs : List (List String))
    (hv : ∀ p ∈ fs, ∀ c ∈ p, '>' ∉ c.data) :
    xmlScan (render (buildSources fs)) = ((MState.text, []), totalFiles (buildSources fs)) :=
  render_scan _ (buildSources_names fs) (buildSources_files_safe fs hv)

/-- C1 (counterexample): the claim that `discover` (`find_sources`) searches
`basePath` recursively is false on the code.  The entry `base/sub/a.c`
matches the extension pattern `*.c` (first conjunct), yet discovery over
`base` with pattern `*.c` returns nothing; discovery rooted at the
subdirectory itself does return the file, showing it was reachable. -/
theorem C1_counterexample :
    globComponent "*.c" "a.c" = true ∧
    find_sources [["base", "sub", "a.c"]] "base" "*.c" = [] ∧
    find_sources [["base", "sub", "a.c"]] "base/sub" "*.c" = ["base\\sub\\a.c"] := by
  refine ⟨by decide, ?_, ?_⟩
  · simp only [find_sources]
    rw [show (([["base", "sub", "a.c"]] : List (List String)).filter
      (fun f => matchPath (splitSlash "base" ++ splitSlash "*.c") f)) = [] from by decide]
    simp
  · simp only [find_sources]
    rw [show (([["base", "sub", "a.c"]] : List (List String)).filter
      (fun f => matchPath (splitSlash "base/sub" ++ splitSlash "*.c") f))
      = [["base", "sub", "a.c"]] from by decide]
    simp only [List.map_cons, List.map_nil, List.mergeSort_singleton]
    decide

/-- C1 (amended): for a wildcard-free base path and a pattern without the
recursive component `**` (the script only ever passes `*.c`), discovery is
non-recursive: every matched entry lies at exactly the depth of the joined
pattern, so files in nested subdirectories of `basePath` are never returned;
a direct child of `basePath` whose name matches a single-component pattern
is returned.  Matches in subdirectories require a separate call (as the
script does for the libuv `win` subfolder). -/
theorem C1_find_sources_nonrecursive (fs : List (List String)) (base pat : String)
    (hb : ∀ c ∈ splitSlash base, ∀ ch ∈ c.data, ch ≠ '*' ∧ ch ≠ '?')
    (hss : "**" ∉ splitSlash base ++ splitSlash pat) :
    (∀ f ∈ fs, matchPath (splitSlash base ++ splitSlash pat) f = true →
      f.length = (splitSlash base).length + (splitSlash pat).length) ∧
    (∀ name : String, splitSlash pat = [pat] →
      (splitSlash base ++ [name]) ∈ fs → globComponent pat name = true →
      replSlash (joinSlash (splitSlash base ++ [name])) ∈ find_sources fs base pat) := by
  constructor
  · intro f _ hm
    rw [length_of_matchPath _ hss f hm, List.length_append]
  · intro name hsp hmem hglob
    refine (mem_find_sources fs base pat _).mpr ⟨splitSlash base ++ [name], hmem, ?_, rfl⟩
    rw [hsp]
    apply matchPath_append_of_literal (splitSlash base) hb
    have hne : pat ≠ "**" := by
      intro he
      exact hss (List.mem_append.mpr (Or.inr (by rw [hsp, he]; exact List.mem_singleton_self _)))
    rw [matchPath_cons_cons, if_neg hne]
    simp [hglob, matchPath_nil]

/-- Witness for `C1_find_sources_nonrecursive` at a concrete listing. -/
theorem C1_find_sources_nonrecursive_witness :
    ((∀ c ∈ splitSlash "base", ∀ ch ∈ c.data, ch ≠ '*' ∧ ch ≠ '?') ∧
      "**" ∉ splitSlash "base" ++ splitSlash "*.c") ∧
    ((∀ f ∈ [["base", "a.c"], ["base", "sub", "x.c"]],
        matchPath (splitSlash "base" ++ splitSlash "*.c") f = true →
        f.length = (splitSlash "base").length + (splitSlash "*.c").length) ∧
      (∀ name : String, splitSlash "*.c" = ["*.c"] →
        (splitSlash "base" ++ [name]) ∈ [["base", "a.c"], ["base", "sub", "x.c"]] →
        globComponent "*.c" name = true →
        replSlash (joinSlash (splitSlash "base" ++ [name]))
          ∈ find_sources [["base", "a.c"], ["base", "sub", "x.c"]] "base" "*.c")) :=
  ⟨⟨by decide, by decide⟩,
    C1_find_sources_nonrecursive [["base", "a.c"], ["base", "sub", "x.c"]] "base" "*.c"
      (by decide) (by decide)⟩

/-- C2: the whole pipeline (discovery, group assembly, rendering, summary) is
a deterministic function of the filesystem listing; in fact it is invariant
even under reordering of the listing (so in particular two runs over the
identical listing give byte-identical output), because discovered groups are
sorted and everything else is independent of the listing order. -/
theorem C2_pipeline_deterministic (fs1 fs2 : List (List String))
    (h : fs1.Perm fs2) :
    render (buildSources fs1) = render (buildSources fs2) ∧
    summaryOutput (buildSources fs1) = summaryOutput (buildSources fs2) := by
  have key : ∀ b p, find_sources fs1 b p = find_sources fs2 b p :=
    fun b p => find_sources_perm fs1 fs2 b p h
  have hb : buildSources fs1 = buildSources fs2 := by
    simp [buildSources, key]
  rw [hb]
  exact ⟨rfl, rfl⟩

/-- Witness for `C2_pipeline_deterministic` at a concrete listing. -/
theorem C2_pipeline_deterministic_witness :
    ([["vendor", "hashlink", "src", "std", "a.c"]] : List (List String)).Perm
      [["vendor", "hashlink", "src", "std", "a.c"]] ∧
    (render (buildSources [["vendor", "hashlink", "src", "std", "a.c"]])
        = render (buildSources [["vendor", "hashlink", "src", "std", "a.c"]]) ∧
      summaryOutput (buildSources [["vendor", "hashlink", "src", "std", "a.c"]])
        = summaryOutput (buildSources [["vendor", "hashlink", "src", "std", "a.c"]])) :=
  ⟨List.Perm.refl _,
    C2_pipeline_deterministic _ _ (List.Perm.refl _)⟩

/-- C3: every discovered list is sorted (ascending, lexicographic on
code points, as Python `sorted` produces), and every returned path contains
no forward slash (each was replaced by a backslash) and is the normalized
form of a listing entry, which is relative to the working directory. -/
theorem C3_find_sources_normalized (fs : List (List String)) (base pat : String) :
    List.Sorted (· ≤ ·) (find_sources fs base pat) ∧
    ∀ p ∈ find_sources fs base pat,
      '/' ∉ p.data ∧
      ∃ f ∈ fs, matchPath (splitSlash base ++ splitSlash pat) f = true ∧
        p = replSlash (joinSlash f) := by
  refine ⟨find_sources_sorted fs base pat, ?_⟩
  intro p hp
  obtain ⟨f, hf, hm, rfl⟩ := (mem_find_sources fs base pat p).mp hp
  exact ⟨replSlash_no_slash _, f, hf, hm, rfl⟩

/-- C4: a base path under which no listing entry lives (in particular a
non-existent directory) makes discovery return the empty list — `glob`
yields no matches rather than raising — and the run still completes: the
generator still renders a full document, header through footer. -/
theorem C4_missing_base_tolerated (fs : List (List String)) (base pat : String)
    (hb : ∀ c ∈ splitSlash base, ∀ ch ∈ c.data, ch ≠ '*' ∧ ch ≠ '?')
    (habs : ∀ f ∈ fs, ¬ (splitSlash base <+: f)) :
    find_sources fs base pat = [] ∧
    VCXPROJ_HEADER.data <+: (render (buildSources fs)).data ∧
    VCXPROJ_FOOTER.data <:+ (render (buildSources fs)).data := by
  refine ⟨?_, ?_, ?_⟩
  · have hfil : (fs.filter fun f => matchPath (splitSlash base ++ splitSlash pat) f) = [] := by
      rw [List.filter_eq_nil_iff]
      intro f hf hmatch
      have hm : matchPath (splitSlash base ++ splitSlash pat) f = true := hmatch
      exact habs f hf (prefix_of_matchPath_literal (splitSlash base) hb (splitSlash pat) f hm)
    simp [find_sources, hfil]
  · rw [render_eq]
    simp only [String.data_append]
    exact (List.prefix_append _ _).trans (List.prefix_append _ _)
  · rw [render_eq]
    simp only [String.data_append]
    exact List.suffix_append _ _

/-- Witness for `C4_missing_base_tolerated`: a listing with nothing under
the standard-library vendor subtree. -/
theorem C4_missing_base_tolerated_witness :
    ((∀ c ∈ splitSlash "vendor/hashlink/src/std", ∀ ch ∈ c.data, ch ≠ '*' ∧ ch ≠ '?') ∧
      (∀ f ∈ ([["other.c"]] : List (List String)),
        ¬ (splitSlash "vendor/hashlink/src/std" <+: f))) ∧
    (find_sources [["other.c"]] "vendor/hashlink/src/std" "*.c" = [] ∧
      VCXPROJ_HEADER.data <+: (render (buildSources [["other.c"]])).data ∧
      VCXPROJ_FOOTER.data <:+ (render (buildSources [["other.c"]])).data) :=
  ⟨⟨by decide, by decide⟩,
    C4_missing_base_tolerated [["other.c"]] "vendor/hashlink/src/std" "*.c"
      (by decide) (by decide)⟩

/-- C5 (counterexample): "within a discovered group files appear in
lexicographic order" fails for the libuv group, which concatenates two
separate discoveries.  On a listing holding `zz.c` at the top of the libuv
`src` tree and `a.c` in its `win` subfolder, the assembled group lists
`src\zz.c` before `src\win\a.c`, which is not lexicographically sorted. -/
theorem C5_counterexample :
    (buildSources [["vendor", "hashlink", "include", "libuv", "src", "zz.c"],
        ["vendor", "hashlink", "include", "libuv", "src", "win", "a.c"]])[5]?
      = some ("libuv sources (embedded)",
        ["vendor\\hashlink\\include\\libuv\\src\\zz.c",
         "vendor\\hashlink\\include\\libuv\\src\\win\\a.c"]) ∧
    ¬ List.Sorted (· ≤ ·)
      ["vendor\\hashlink\\include\\libuv\\src\\zz.c",
       "vendor\\hashlink\\include\\libuv\\src\\win\\a.c"] := by
  constructor
  · have h1 : find_sources [["vendor", "hashlink", "include", "libuv", "src", "zz.c"],
        ["vendor", "hashlink", "include", "libuv", "src", "win", "a.c"]]
        "vendor/hashlink/include/libuv/src" "*.c"
        = ["vendor\\hashlink\\include\\libuv\\src\\zz.c"] := by
      simp only [find_sources]
      rw [show (([["vendor", "hashlink", "include", "libuv", "src", "zz.c"],
          ["vendor", "hashlink", "include", "libuv", "src", "win", "a.c"]] :
            List (List String)).filter
          (fun f => matchPath (splitSlash "vendor/hashlink/include/libuv/src"
            ++ splitSlash "*.c") f))
        = [["vendor", "hashlink", "include", "libuv", "src", "zz.c"]] from by decide]
      simp only [List.map_cons, List.map_nil, List.mergeSort_singleton]
      decide
    have h2 : find_sources [["vendor", "hashlink", "include", "libuv", "src", "zz.c"],
        ["vendor", "hashlink", "include", "libuv", "src", "win", "a.c"]]
        "vendor/hashlink/include/libuv/src/win" "*.c"
        = ["vendor\\hashlink\\include\\libuv\\src\\win\\a.c"] := by
      simp only [find_sources]
      rw [show (([["vendor", "hashlink", "include", "libuv", "src", "zz.c"],
          ["vendor", "hashlink", "include", "libuv", "src", "win", "a.c"]] :
            List (List String)).filter
          (fun f => matchPath (splitSlash "vendor/hashlink/include/libuv/src/win"
            ++ splitSlash "*.c") f))
        = [["vendor", "hashlink", "include", "libuv", "src", "win", "a.c"]] from by decide]
      simp only [List.map_cons, List.map_nil, List.mergeSort_singleton]
      decide
    simp [buildSources, h1, h2]
  · simp only [List.Sorted, List.pairwise_cons, List.mem_singleton]
    intro h
    have h2 := h.1 _ rfl
    rw [String.le_iff_toList_le] at h2
    revert h2
    decide

/-- C5 (amended): the rendered document is the header, then for each group
in insertion order its comment line followed by one include-entry per file
in the group's list order, then the footer; groups appear in the script's
fixed order (explicit groups at positions 0, 1, 4 before/between the
discovered ones); each group discovered by a single pattern search is
lexicographically sorted; the libuv group is the concatenation of two
independently sorted searches (top-level, then the `win` subfolder) and is
sorted within each part, though not necessarily as a whole. -/
theorem C5_render_order (fs : List (List String)) :
    (∀ sources : List (String × List String),
      render sources = VCXPROJ_HEADER ++ sectionsText sources ++ VCXPROJ_FOOTER ∧
      ∀ n files, sectionText n files
        = commentLine n ++ (files.map entryLine).foldr (· ++ ·) "" ++ "\n") ∧
    (buildSources fs).map Prod.fst = groupNames ∧
    List.Sorted (· ≤ ·) (find_sources fs "vendor/hashlink/src/std" "*.c") ∧
    List.Sorted (· ≤ ·) (find_sources fs "vendor/hashlink/include/pcre" "*.c") ∧
    List.Sorted (· ≤ ·) (find_sources fs "vendor/hashlink/include/mbedtls/library" "*.c") ∧
    ((buildSources fs)[5]? = some ("libuv sources (embedded)",
        find_sources fs "vendor/hashlink/include/libuv/src" "*.c" ++
        find_sources fs "vendor/hashlink/include/libuv/src/win" "*.c") ∧
      List.Sorted (· ≤ ·) (find_sources fs "vendor/hashlink/include/libuv/src" "*.c") ∧
      List.Sorted (· ≤ ·) (find_sources fs "vendor/hashlink/include/libuv/src/win" "*.c")) := by
  refine ⟨fun sources => ⟨render_eq sources, fun n files => rfl⟩, ?_,
    find_sources_sorted _ _ _, find_sources_sorted _ _ _, find_sources_sorted _ _ _,
    rfl, find_sources_sorted _ _ _, find_sources_sorted _ _ _⟩
  simp [buildSources, groupNames]

/-- C6: over any listing (of real file names, which cannot contain `>`),
the rendered document is balanced — the scanner ends in text mode with no
open element — and the number of include-entries (self-closing `ClCompile`
elements) equals the total number of file occurrences across all groups:
no file is dropped or duplicated by rendering. -/
theorem C6_wellformed_unique_entries (fs : List (List String))
    (hv : ∀ p ∈ fs, ∀ c ∈ p, '>' ∉ c.data) :
    xmlBalanced (render (buildSources fs)) = true ∧
    clCompileCount (render (buildSources fs)) = totalFiles (buildSources fs) := by
  have h := xmlScan_render_buildSources fs hv
  constructor
  · simp [xmlBalanced, h]
  · simp [clCompileCount, h]

/-- Witness for `C6_wellformed_unique_entries` at the empty listing. -/
theorem C6_wellformed_unique_entries_witness :
    (∀ p ∈ ([] : List (List String)), ∀ c ∈ p, '>' ∉ c.data) ∧
    (xmlBalanced (render (buildSources [])) = true ∧
      clCompileCount (render (buildSources [])) = totalFiles (buildSources [])) :=
  ⟨by simp, C6_wellformed_unique_entries [] (by simp)⟩

/-- C7: writing is independent of the file's prior content (mode `w`
truncates), every linefeed in the written bytes is preceded by a carriage
return and the file ends in CRLF (so every line ends in CRLF), and apart
from the inserted carriage returns the written bytes are exactly the
rendered document. -/
theorem C7_write_crlf (prior prior2 : String) (sources : List (String × List String)) :
    writeOutput prior (render sources) = writeOutput prior2 (render sources) ∧
    noBareLF (writeOutput prior (render sources)).data ' ' = true ∧
    ['\r', '\n'] <:+ (writeOutput prior (render sources)).data ∧
    (writeOutput prior (render sources)).data.filter (fun c => !(c = '\r'))
      = (render sources).data.filter (fun c => !(c = '\r')) := by
  refine ⟨rfl, noBareLF_crlfData _ ' ', ?_, crlfData_filter _⟩
  show ['\r', '\n'] <:+ crlfData (render sources).data
  rw [show render sources = renderLoop VCXPROJ_HEADER sources ++ VCXPROJ_FOOTER from rfl,
    String.data_append, crlfData_append]
  exact List.IsSuffix.trans (by decide) (List.suffix_append _ _)

/-- C8: if discovery for a group finds no matching entry -- whether because
the base directory is absent or because it exists but holds no files
matching the pattern -- the group's file list is empty; an empty group's
section text is exactly its comment line (zero include-entries); and every
group's comment line is present in the rendered document, over any listing. -/
theorem C8_empty_groups_keep_comments (fs : List (List String)) (base pat : String)
    (h : ∀ f ∈ fs, matchPath (splitSlash base ++ splitSlash pat) f = false) :
    find_sources fs base pat = [] ∧
    (∀ n, sectionText n [] = commentLine n ++ "\n") ∧
    (∀ g ∈ buildSources fs, (commentLine g.1).data <:+: (render (buildSources fs)).data) := by
  refine ⟨?_, fun n => by simp [sectionText],
    fun g hg => commentLine_infix_render _ g hg⟩
  have hfil : (fs.filter fun f => matchPath (splitSlash base ++ splitSlash pat) f) = [] := by
    rw [List.filter_eq_nil_iff]
    intro f hf hm
    have hm2 : matchPath (splitSlash base ++ splitSlash pat) f = true := hm
    rw [h f hf] at hm2
    exact absurd hm2 (by simp)
  simp [find_sources, hfil]

/-- Witness for `C8_empty_groups_keep_comments`: the std vendor subtree
exists in the listing but holds only a non-matching file (`readme.txt`),
so the standard-library group is discovered empty while its comment line
is still rendered. -/
theorem C8_empty_groups_keep_comments_witness :
    (∀ f ∈ ([["vendor", "hashlink", "src", "std", "readme.txt"]] : List (List String)),
      matchPath (splitSlash "vendor/hashlink/src/std" ++ splitSlash "*.c") f = false) ∧
    (find_sources [["vendor", "hashlink", "src", "std", "readme.txt"]]
        "vendor/hashlink/src/std" "*.c" = [] ∧
      (∀ n, sectionText n [] = commentLine n ++ "\n") ∧
      (∀ g ∈ buildSources [["vendor", "hashlink", "src", "std", "readme.txt"]],
        (commentLine g.1).data
          <:+: (render (buildSources [["vendor", "hashlink", "src", "std", "readme.txt"]])).data)) :=
  ⟨by decide,
    C8_empty_groups_keep_comments [["vendor", "hashlink", "src", "std", "readme.txt"]]
      "vendor/hashlink/src/std" "*.c" (by decide)⟩

/-- C9: the printed summary is the generated-file line, the total line, one
per-group count line for each group in order, and the rename instruction;
the total is by construction the sum of the per-group counts, and it equals
the number of include-entries in the rendered document. -/
theorem C9_summary_counts (fs : List (List String))
    (hv : ∀ p ∈ fs, ∀ c ∈ p, '>' ∉ c.data) :
    summaryOutput (buildSources fs) =
      "Generated hlffi_monolithic.vcxproj\n" ++
      "Total source files: " ++ toString (totalFiles (buildSources fs)) ++ "\n" ++
      ((buildSources fs).map fun g =>
        "  " ++ g.1 ++ ": " ++ toString g.2.length ++ " files\n").foldr (· ++ ·) "" ++
      "\nTo use:\n" ++
      "  mv hlffi_monolithic.vcxproj hlffi.vcxproj\n" ∧
    totalFiles (buildSources fs) = ((buildSources fs).map fun g => g.2.length).sum ∧
    clCompileCount (render (buildSources fs)) = totalFiles (buildSources fs) := by
  refine ⟨rfl, rfl, ?_⟩
  have h := xmlScan_render_buildSources fs hv
  simp [clCompileCount, h]

/-- Witness for `C9_summary_counts` at the empty listing. -/
theorem C9_summary_counts_witness :
    (∀ p ∈ ([] : List (List String)), ∀ c ∈ p, '>' ∉ c.data) ∧
    (summaryOutput (buildSources []) =
      "Generated hlffi_monolithic.vcxproj\n" ++
      "Total source files: " ++ toString (totalFiles (buildSources [])) ++ "\n" ++
      ((buildSources []).map fun g =>
        "  " ++ g.1 ++ ": " ++ toString g.2.length ++ " files\n").foldr (· ++ ·) "" ++
      "\nTo use:\n" ++
      "  mv hlffi_monolithic.vcxproj hlffi.vcxproj\n" ∧
    totalFiles (buildSources []) = ((buildSources []).map fun g => g.2.length).sum ∧
    clCompileCount (render (buildSources [])) = totalFiles (buildSources [])) :=
  ⟨by simp, C9_summary_counts [] (by simp)⟩

/-- C10: the three hand-declared groups are placed into the group list
verbatim, independent of the listing (no existence check), each of their
entries appears as an include-entry in the rendered document for every
listing — including listings from which those files are absent — whereas
every path of a discovered group is the normalized form of a listing
entry returned by the traversal. -/
theorem C10_explicit_lists_verbatim (fs : List (List String)) :
    (buildSources fs)[0]? = some ("HLFFI wrapper code", hlffiWrapperFiles) ∧
    (buildSources fs)[1]? = some ("HashLink VM core", hashlinkVmFiles) ∧
    (buildSources fs)[4]? = some ("Plugin wrappers", pluginWrapperFiles) ∧
    (∀ f ∈ hlffiWrapperFiles ++ hashlinkVmFiles ++ pluginWrapperFiles,
      (entryLine f).data <:+: (render (buildSources fs)).data) ∧
    (∀ base pat : String, ∀ p ∈ find_sources fs base pat,
      ∃ e ∈ fs, p = replSlash (joinSlash e)) := by
  refine ⟨rfl, rfl, rfl, ?_, ?_⟩
  · intro f hf
    rcases List.mem_append.mp hf with h1 | h1
    · rcases List.mem_append.mp h1 with h2 | h2
      · exact entryLine_infix_render _ ("HLFFI wrapper code", hlffiWrapperFiles) f
          (by simp [buildSources]) h2
      · exact entryLine_infix_render _ ("HashLink VM core", hashlinkVmFiles) f
          (by simp [buildSources]) h2
    · exact entryLine_infix_render _ ("Plugin wrappers", pluginWrapperFiles) f
        (by simp [buildSources]) h1
  · intro base pat p hp
    obtain ⟨e, he, _, rfl⟩ := (mem_find_sources fs base pat p).mp hp
    exact ⟨e, he, rfl⟩
